import Mathlib

/-!
Verification of the `timedmap` repository (Go): a map whose entries carry an
expiration timestamp, plus a background cleaner that periodically sweeps
expired entries.

Shallow embedding notes:
* Go `time.Time` / `int64` unix-nanosecond instants are modelled as unbounded
  `Int`; the claims under study concern comparison and addition of realistic
  instants, where `int64` does not overflow (overflow would need times beyond
  the year 2262), so wrap-around is out of the model.
* Go `interface{}` values (used for both keys and stored values) are modelled
  by the closed universe `GoValue` with a distinguished `nil`.
* The Go built-in `map[interface{}]*Element` is modelled as an association
  list with map-assignment semantics (assignment replaces the entry for the
  key; Go map keys are unique).
* Every method that calls `time.Now()` takes the sampled instant `now` as an
  explicit argument, one argument per textual `time.Now()` call site.
* Go runtime panics (here: `close` of an already-closed channel) are modelled
  as `Except GoPanic`; operations whose bodies contain no panic site are
  total.
-/

namespace Timedmap

/-- Model of Go `interface{}` dynamic values, with the distinguished `nil`. -/
inductive GoValue where
  | nil : GoValue
  | int : Int → GoValue
  | str : String → GoValue
deriving DecidableEq, Repr

/-- `Element` (src/timedmap.go lines 20-23): the stored value and its expiry
instant `expires` (int64 unix nanoseconds, modelled as `Int`). -/
structure Element where
  Value : GoValue
  expires : Int
deriving DecidableEq, Repr

/-- `Map` (src/timedmap.go lines 11-14): the container
`map[interface{}]*Element`, modelled as an association list. -/
structure Map where
  container : List (GoValue × Element)
deriving DecidableEq, Repr

/-- Go map read `tm.container[key]`: the entry stored under `key`, if any. -/
def findEntryL : List (GoValue × Element) → GoValue → Option Element
  | [], _ => none
  | p :: rest, k => if p.1 = k then some p.2 else findEntryL rest k

/-- Lookup in the container, `v, ok := tm.container[key]`. -/
def Map.findEntry (m : Map) (k : GoValue) : Option Element :=
  findEntryL m.container k

/-- The read-time expiry test of `Get` (src/timedmap.go line 144):
`time.Now().UnixNano() > v.Expires()`. -/
def getExpiredTest (now expires : Int) : Bool :=
  decide (now > expires)

/-- The delete test of `Cleanup` (src/timedmap.go line 131):
`now > v.expires`. -/
def cleanupDeleteTest (now expires : Int) : Bool :=
  decide (now > expires)

/-- `Map.Get` (src/timedmap.go lines 138-149): looks the key up, then returns
not-found when the key is absent or the read-time expiry test fires; `now` is
the instant sampled by the `time.Now()` call on line 144. -/
def Map.get (m : Map) (k : GoValue) (now : Int) : Option Element :=
  match m.findEntry k with
  | none => none
  | some v => if getExpiredTest now v.expires then none else some v

/-- `Map.GetValue` (src/timedmap.go lines 62-68): `v.Value` of a live entry,
`nil` otherwise. -/
def Map.getValue (m : Map) (k : GoValue) (now : Int) : GoValue :=
  match m.get k now with
  | some v => v.Value
  | none => GoValue.nil

/-- `Map.GetExpires` (src/timedmap.go lines 72-78): the expiry instant of a
live entry together with the found flag, modelled as `Option Int`. -/
def Map.getExpires (m : Map) (k : GoValue) (now : Int) : Option Int :=
  (m.get k now).map Element.expires

/-- `Map.Contains` (src/timedmap.go lines 83-86): the found flag of `Get`. -/
def Map.contains (m : Map) (k : GoValue) (now : Int) : Bool :=
  (m.get k now).isSome

/-- Go map assignment `l[k] = e`: replace the entry for `k`, or append it. -/
def assocSetL : List (GoValue × Element) → GoValue → Element → List (GoValue × Element)
  | [], k, e => [(k, e)]
  | p :: rest, k, e => if p.1 = k then (k, e) :: rest else p :: assocSetL rest k e

/-- `Map.Set` (src/timedmap.go lines 49-57): stores a fresh `Element` whose
expiry is `time.Now().Add(expiresAfter).UnixNano()`, i.e. `now + ttl`. -/
def Map.set (m : Map) (k v : GoValue) (ttl now : Int) : Map :=
  ⟨assocSetL m.container k ⟨v, now + ttl⟩⟩

/-- `Map.Remove` (src/timedmap.go lines 89-93): `delete(tm.container, key)`. -/
def Map.remove (m : Map) (k : GoValue) : Map :=
  ⟨m.container.filter (fun p => decide (p.1 ≠ k))⟩

/-- The in-place update done by `Extend`'s `atomic.AddInt64(&v.expires, int64(d))`
on the element stored under `k` (other entries are untouched). -/
def extendEntry (k : GoValue) (d : Int) (p : GoValue × Element) : GoValue × Element :=
  if p.1 = k then (p.1, ⟨p.2.Value, p.2.expires + d⟩) else p

/-- `Map.Extend` (src/timedmap.go lines 96-102): `Get` the entry; when found,
add `d` to its stored expiry in place; return the found flag. `now` is the
instant sampled inside the `Get` call. -/
def Map.extend (m : Map) (k : GoValue) (d now : Int) : Map × Bool :=
  match m.get k now with
  | some _ => (⟨m.container.map (extendEntry k d)⟩, true)
  | none => (m, false)

/-- `Map.Flush` (src/timedmap.go lines 105-110): replace the container with a
fresh empty map. -/
def Map.flush (_ : Map) : Map :=
  ⟨[]⟩

/-- `Map.Size` (src/timedmap.go lines 114-119): `len(tm.container)`, a raw
structural count. -/
def Map.size (m : Map) : Nat :=
  m.container.length

/-- `Map.Cleanup` (src/timedmap.go lines 123-135): `now` is sampled once
(line 128, under the lock, before the loop); every entry whose expiry passes
`cleanupDeleteTest` against that single snapshot is deleted. -/
def Map.cleanup (m : Map) (now : Int) : Map :=
  ⟨m.container.filter (fun p => !(cleanupDeleteTest now p.2.expires))⟩

/-- State-transformer form of `Get` (src/timedmap.go lines 138-149): the body
reads the container under `RLock`/`RUnlock` and contains no write to it, so
each branch returns the receiver's state unchanged. -/
def Map.getS (m : Map) (k : GoValue) (now : Int) : Option Element × Map :=
  match m.findEntry k with
  | none => (none, m)
  | some v => if getExpiredTest now v.expires then (none, m) else (some v, m)

/-- State-transformer form of `GetValue` (lines 62-68): delegates to `Get`. -/
def Map.getValueS (m : Map) (k : GoValue) (now : Int) : GoValue × Map :=
  let r := m.getS k now
  (match r.1 with
   | some v => v.Value
   | none => GoValue.nil, r.2)

/-- State-transformer form of `Contains` (lines 83-86): delegates to `Get`. -/
def Map.containsS (m : Map) (k : GoValue) (now : Int) : Bool × Map :=
  let r := m.getS k now
  (r.1.isSome, r.2)

/-- State-transformer form of `GetExpires` (lines 72-78): delegates to `Get`. -/
def Map.getExpiresS (m : Map) (k : GoValue) (now : Int) : Option Int × Map :=
  let r := m.getS k now
  (r.1.map Element.expires, r.2)

/-- Go runtime panics reachable in this code base. -/
inductive GoPanic where
  | closeOfClosedChannel : GoPanic
deriving DecidableEq, Repr

/-- `Map.Remove` with panic accounting: the body (lock, built-in `delete`,
unlock) has no panic site — Go's `delete` is a no-op on an absent key. -/
def Map.removeE (m : Map) (k : GoValue) : Except GoPanic Map :=
  Except.ok (m.remove k)

/-- `Map.Flush` with panic accounting: the body (lock, fresh `make`, unlock)
has no panic site, also when the map is already empty. -/
def Map.flushE (m : Map) : Except GoPanic Map :=
  Except.ok m.flush

/-- The `Cleaner`'s lifecycle state (src/unnamed/part_001 lines 22-28): has
the ticker been stopped, and has `stopChan` been closed. -/
structure Cleaner where
  tickerStopped : Bool
  stopChanClosed : Bool
deriving DecidableEq, Repr

/-- `NewCleanerCustom` (src/unnamed/part_001 lines 38-43): ticker running,
`stopChan` freshly made (open). -/
def newCleanerCustom : Cleaner :=
  ⟨false, false⟩

/-- `Cleaner.Stop` (src/unnamed/part_001 lines 71-74): `c.ticker.Stop()` then
`close(c.stopChan)`. In Go, `close` of an already-closed channel panics. -/
def Cleaner.stop (c : Cleaner) : Except GoPanic Cleaner :=
  if c.stopChanClosed then Except.error GoPanic.closeOfClosedChannel
  else Except.ok ⟨true, true⟩

/-- One firing of an arm of the `select` in `Cleaner.Start`'s goroutine
(src/unnamed/part_001 lines 56-66): either the ticker channel delivers a tick
or the (closed) stop channel is readable. -/
inductive CleanerEvent where
  | tick : CleanerEvent
  | stopSignal : CleanerEvent
deriving DecidableEq, Repr

/-- The `for { select { ... } }` loop of `Cleaner.Start` (src/unnamed/part_001
lines 54-69), as a function from the sequence of select-arm firings to the
sequence of callback invocations (callbacks named by identifiers `onTickQ`).
The tick arm runs every registered callback in order. The stop arm executes
`break`, which in Go terminates only the `select` statement, not the `for`
loop, so the loop continues with the remaining events; no statement in the
loop exits it. -/
def runLoop (onTickQ : List Nat) : List CleanerEvent → List Nat
  | [] => []
  | CleanerEvent.tick :: rest => onTickQ ++ runLoop onTickQ rest
  | CleanerEvent.stopSignal :: rest => runLoop onTickQ rest

/-- Concrete one-entry map whose entry expires at instant 5. -/
def mapBoundaryA : Map :=
  ⟨[(GoValue.int 1, ⟨GoValue.int 10, 5⟩)]⟩

/-- Concrete one-entry map whose entry expires at instant 7. -/
def mapBoundaryB : Map :=
  ⟨[(GoValue.int 2, ⟨GoValue.int 20, 7⟩)]⟩

/-- Concrete one-entry map with a live entry (expiry 10), for witnesses. -/
def mapLive : Map :=
  ⟨[(GoValue.int 3, ⟨GoValue.int 30, 10⟩)]⟩

theorem findEntryL_assocSet_self (l : List (GoValue × Element)) (k : GoValue) (e : Element) :
    findEntryL (assocSetL l k e) k = some e := by
  induction l with
  | nil => simp [assocSetL, findEntryL]
  | cons p rest ih =>
      by_cases h : p.1 = k
      · simp [assocSetL, findEntryL, h]
      · simp [assocSetL, findEntryL, h, ih]

theorem findEntryL_assocSet_ne (l : List (GoValue × Element)) (k k' : GoValue) (e : Element)
    (hne : k' ≠ k) : findEntryL (assocSetL l k e) k' = findEntryL l k' := by
  have hkk : ¬k = k' := fun hh => hne hh.symm
  induction l with
  | nil => simp [assocSetL, findEntryL, hkk]
  | cons p rest ih =>
      by_cases h : p.1 = k
      · simp [assocSetL, findEntryL, h, hkk]
      · simp [assocSetL, findEntryL, h, ih]

theorem findEntryL_extend_self (l : List (GoValue × Element)) (k : GoValue) (d : Int)
    (v : Element) (hfind : findEntryL l k = some v) :
    findEntryL (l.map (extendEntry k d)) k = some ⟨v.Value, v.expires + d⟩ := by
  induction l with
  | nil => simp [findEntryL] at hfind
  | cons p rest ih =>
      by_cases h : p.1 = k
      · simp [findEntryL, h] at hfind
        simp [findEntryL, extendEntry, h, hfind]
      · simp [findEntryL, h] at hfind
        simp [findEntryL, extendEntry, h, ih hfind]

theorem findEntryL_extend_ne (l : List (GoValue × Element)) (k k' : GoValue) (d : Int)
    (hne : k' ≠ k) : findEntryL (l.map (extendEntry k d)) k' = findEntryL l k' := by
  have hkk : ¬k = k' := fun hh => hne hh.symm
  induction l with
  | nil => simp [findEntryL]
  | cons p rest ih =>
      by_cases h : p.1 = k
      · simp [findEntryL, extendEntry, h, hkk, ih]
      · simp [findEntryL, extendEntry, h, ih]

theorem getS_snd (m : Map) (k : GoValue) (now : Int) :
    (m.getS k now).2 = m := by
  unfold Map.getS
  cases m.findEntry k with
  | none => rfl
  | some v =>
      by_cases h : getExpiredTest now v.expires
      · simp [h]
      · simp [h]

theorem getS_fst (m : Map) (k : GoValue) (now : Int) :
    (m.getS k now).1 = m.get k now := by
  unfold Map.getS Map.get
  cases m.findEntry k with
  | none => rfl
  | some v =>
      by_cases h : getExpiredTest now v.expires
      · simp [h]
      · simp [h]

/-- C1 counterexample: the claim states that whenever `now >= expiresAt` the
entry behaves as absent to all reads. At the boundary instant `now = 5 =
expiresAt`, the stored entry is still reported present by `Contains` (the
source test on src/timedmap.go line 144 is the strict `now > expires`), so
the claim as stated is false at this concrete input. -/
theorem read_present_at_boundary :
    (5 : Int) ≥ 5 ∧ mapBoundaryA.contains (GoValue.int 1) 5 = true := by
  decide

/-- C1, amended: for every physically stored entry, the read operations treat
it as present exactly when `now ≤ expiresAt`; whenever `now > expiresAt` it
behaves as absent to all reads (`Get` not-found, `GetValue` nil, `Contains`
false, `GetExpires` not-found), even though it is still stored and no sweep
has run. -/
theorem read_visibility_le (m : Map) (k : GoValue) (v : Element) (now : Int)
    (hfind : m.findEntry k = some v) :
    m.get k now = (if now ≤ v.expires then some v else none)
    ∧ m.contains k now = decide (now ≤ v.expires)
    ∧ m.getValue k now = (if now ≤ v.expires then v.Value else GoValue.nil)
    ∧ m.getExpires k now = (if now ≤ v.expires then some v.expires else none) := by
  have hget : m.get k now = (if now ≤ v.expires then some v else none) := by
    unfold Map.get
    rw [hfind]
    by_cases h : now ≤ v.expires
    · simp [getExpiredTest, h, not_lt.mpr h]
    · simp [getExpiredTest, h, lt_of_not_le h]
  refine ⟨hget, ?_, ?_, ?_⟩
  · unfold Map.contains
    rw [hget]
    by_cases h : now ≤ v.expires <;> simp [h]
  · unfold Map.getValue
    rw [hget]
    by_cases h : now ≤ v.expires <;> simp [h]
  · unfold Map.getExpires
    rw [hget]
    by_cases h : now ≤ v.expires <;> simp [h]

/-- Witness for `read_visibility_le` at the stored entry of `mapBoundaryA`
(expiry 5) read at instant 6: all four reads report absence. -/
theorem read_visibility_le_witness :
    mapBoundaryA.get (GoValue.int 1) 6 = (if (6 : Int) ≤ 5 then some ⟨GoValue.int 10, 5⟩ else none)
    ∧ mapBoundaryA.contains (GoValue.int 1) 6 = decide ((6 : Int) ≤ 5)
    ∧ mapBoundaryA.getValue (GoValue.int 1) 6
        = (if (6 : Int) ≤ 5 then GoValue.int 10 else GoValue.nil)
    ∧ mapBoundaryA.getExpires (GoValue.int 1) 6 = (if (6 : Int) ≤ 5 then some 5 else none) :=
  read_visibility_le mapBoundaryA (GoValue.int 1) ⟨GoValue.int 10, 5⟩ 6 (by decide)

/-- C2 counterexample: the claim states that `Cleanup` deletes every stored
entry whose `expiresAt` is at or before the snapshot `now`. With the single
entry expiring exactly at the snapshot (`expiresAt = now = 7`), the source
test `now > v.expires` (src/timedmap.go line 131) does not fire and the entry
survives the sweep, so the claim as stated is false at this concrete input. -/
theorem cleanup_keeps_boundary_entry :
    (mapBoundaryB.cleanup 7).container = [(GoValue.int 2, ⟨GoValue.int 20, 7⟩)] := by
  decide

/-- C2, amended: `Cleanup` physically deletes exactly those stored entries
whose `expiresAt` is strictly before the single `now` instant sampled once at
the start of the scan; every entry with `expiresAt` at or after the snapshot
remains in the map unchanged (the surviving container is a sublist of the
original, entries untouched). -/
theorem cleanup_deletes_strictly_before (m : Map) (now : Int) :
    (∀ p : GoValue × Element,
        p ∈ (m.cleanup now).container ↔ p ∈ m.container ∧ now ≤ p.2.expires)
    ∧ List.Sublist (m.cleanup now).container m.container := by
  constructor
  · intro p
    simp only [Map.cleanup, List.mem_filter, cleanupDeleteTest, Bool.not_eq_true',
      decide_eq_false_iff_not, not_lt]
  · exact List.filter_sublist m.container

/-- C5: the lazy (read-time) expiry test used by `Get` and the active delete
test used by the sweeper's `Cleanup` are the same predicate on
`(now, expiresAt)`: `Get` considers an entry expired exactly when `Cleanup`'s
scan would delete it at that same instant. -/
theorem lazy_and_active_expiry_agree (now expires : Int) :
    getExpiredTest now expires = cleanupDeleteTest now expires :=
  rfl

theorem get_some_findEntry (m : Map) (k : GoValue) (now : Int) (v : Element)
    (h : m.get k now = some v) : m.findEntry k = some v := by
  unfold Map.get at h
  cases hf : m.findEntry k with
  | none => rw [hf] at h; simp at h
  | some w =>
      rw [hf] at h
      by_cases ht : getExpiredTest now w.expires
      · simp [ht] at h
      · simp [ht] at h
        exact congrArg some h

/-- C3 (code bug): the claim says that after `Stop()` the goroutine spawned by
`Start()` terminates and no callback runs for any later tick. In the source
(src/unnamed/part_001 lines 54-69) the stop arm of the `select` executes
`break`, which in Go terminates only the `select` statement and not the
enclosing `for`, so the loop never exits; evaluated at the failing input — the
stop signal followed by one more tick — the loop still invokes the registered
callback (id 0). -/
theorem tick_after_stop_runs_callbacks :
    runLoop [0] [CleanerEvent.stopSignal, CleanerEvent.tick] = [0] :=
  rfl

/-- C4: for every key `k` and duration `d` (possibly negative): when a live
entry exists for `k` (the read predicate of `Get`, cf. C1), `Extend` returns
true, adds exactly `d` to that entry's stored expiry, and leaves every other
stored entry unchanged; when no live entry exists (key missing or expired),
`Extend` returns false and leaves the map unchanged. -/
theorem extend_live_adds_delta (m : Map) (k : GoValue) (d now : Int) :
    (m.get k now = none → m.extend k d now = (m, false))
    ∧ ∀ v : Element, m.get k now = some v →
        (m.extend k d now).2 = true
        ∧ (m.extend k d now).1.findEntry k = some ⟨v.Value, v.expires + d⟩
        ∧ ∀ k' : GoValue, k' ≠ k → (m.extend k d now).1.findEntry k' = m.findEntry k' := by
  constructor
  · intro h
    simp [Map.extend, h]
  · intro v h
    have hf : m.findEntry k = some v := get_some_findEntry m k now v h
    refine ⟨by simp [Map.extend, h], ?_, ?_⟩
    · simp only [Map.extend, h, Map.findEntry]
      exact findEntryL_extend_self m.container k d v hf
    · intro k' hk
      simp only [Map.extend, h, Map.findEntry]
      exact findEntryL_extend_ne m.container k k' d hk

/-- Witness for `extend_live_adds_delta`: extending the live entry of
`mapLive` (expiry 10) by 5 at instant 0 returns true and stores expiry
10 + 5; extending a key absent from the empty map returns false with the map
unchanged. -/
theorem extend_live_adds_delta_witness :
    (mapLive.extend (GoValue.int 3) 5 0).2 = true
    ∧ (mapLive.extend (GoValue.int 3) 5 0).1.findEntry (GoValue.int 3)
        = some ⟨GoValue.int 30, 10 + 5⟩
    ∧ (Map.mk []).extend (GoValue.int 3) 5 0 = (Map.mk [], false) :=
  have h2 := (extend_live_adds_delta mapLive (GoValue.int 3) 5 0).2
    ⟨GoValue.int 30, 10⟩ (by decide)
  have h1 := (extend_live_adds_delta (Map.mk []) (GoValue.int 3) 5 0).1 (by decide)
  ⟨h2.1, h2.2.1, h1⟩

/-- C6: for every key `k`, value `v` and `ttl > 0`: `Set(k, v, ttl)` always
succeeds (it is total), replaces any prior entry for `k` entirely with a new
entry whose expiry equals `now + ttl`, leaves every other key's entry
untouched, and immediately afterwards (same instant) `Get(k)` returns the new
entry with found = true, `GetValue` returns `v` and `Contains` returns
true. -/
theorem set_overwrites_and_get_succeeds (m : Map) (k v : GoValue) (ttl now : Int)
    (h : 0 < ttl) :
    (m.set k v ttl now).findEntry k = some ⟨v, now + ttl⟩
    ∧ (m.set k v ttl now).get k now = some ⟨v, now + ttl⟩
    ∧ (m.set k v ttl now).getValue k now = v
    ∧ (m.set k v ttl now).contains k now = true
    ∧ ∀ k' : GoValue, k' ≠ k → (m.set k v ttl now).findEntry k' = m.findEntry k' := by
  have hfe : (m.set k v ttl now).findEntry k = some ⟨v, now + ttl⟩ := by
    simp only [Map.set, Map.findEntry]
    exact findEntryL_assocSet_self m.container k ⟨v, now + ttl⟩
  have hnlt : ¬now > now + ttl := by omega
  have hget : (m.set k v ttl now).get k now = some ⟨v, now + ttl⟩ := by
    simp [Map.get, hfe, getExpiredTest, hnlt]
  refine ⟨hfe, hget, ?_, ?_, ?_⟩
  · simp [Map.getValue, hget]
  · simp [Map.contains, hget]
  · intro k' hk
    simp only [Map.set, Map.findEntry]
    exact findEntryL_assocSet_ne m.container k k' ⟨v, now + ttl⟩ hk

/-- Witness for `set_overwrites_and_get_succeeds`: setting key 9 to value 42
with ttl 100 at instant 7 on the empty map stores expiry 107 and the
immediate reads succeed. -/
theorem set_overwrites_and_get_succeeds_witness :
    ((Map.mk []).set (GoValue.int 9) (GoValue.int 42) 100 7).findEntry (GoValue.int 9)
        = some ⟨GoValue.int 42, 7 + 100⟩
    ∧ ((Map.mk []).set (GoValue.int 9) (GoValue.int 42) 100 7).get (GoValue.int 9) 7
        = some ⟨GoValue.int 42, 7 + 100⟩
    ∧ ((Map.mk []).set (GoValue.int 9) (GoValue.int 42) 100 7).getValue (GoValue.int 9) 7
        = GoValue.int 42
    ∧ ((Map.mk []).set (GoValue.int 9) (GoValue.int 42) 100 7).contains (GoValue.int 9) 7
        = true
    ∧ ∀ k' : GoValue, k' ≠ GoValue.int 9 →
        ((Map.mk []).set (GoValue.int 9) (GoValue.int 42) 100 7).findEntry k'
          = (Map.mk []).findEntry k' :=
  set_overwrites_and_get_succeeds (Map.mk []) (GoValue.int 9) (GoValue.int 42) 100 7
    (by decide)

/-- C7: after `Flush()`, the map is empty regardless of its prior contents:
`Size()` returns 0 and `Get` reports not-found for every key. -/
theorem flush_empties (m : Map) (k : GoValue) (now : Int) :
    (m.flush).size = 0 ∧ (m.flush).get k now = none :=
  ⟨rfl, rfl⟩

/-- C8: the reads (`Get` and the reads derived from it: `GetValue`,
`Contains`, `GetExpires`) never mutate the map, even when they observe an
expired entry: the post-state of each read, in state-transformer form, is the
pre-state, and the returned result agrees with the pure `Get`. -/
theorem reads_do_not_mutate (m : Map) (k : GoValue) (now : Int) :
    (m.getS k now).2 = m ∧ (m.getValueS k now).2 = m ∧ (m.containsS k now).2 = m
    ∧ (m.getExpiresS k now).2 = m ∧ (m.getS k now).1 = m.get k now := by
  refine ⟨getS_snd m k now, ?_, ?_, ?_, getS_fst m k now⟩
  · simp [Map.getValueS, getS_snd]
  · simp [Map.containsS, getS_snd]
  · simp [Map.getExpiresS, getS_snd]

/-- C9: calling the Cleaner's `Stop` a second time after it has already
stopped panics (`close` of an already-closed channel), and ordinary map
misuse does not: a first `Stop` on a running cleaner succeeds and leaves the
stop channel closed, a second `Stop` on that state yields the
close-of-closed-channel panic, while removing a (possibly missing) key and
flushing an already-flushed map complete without any panic. -/
theorem double_stop_panics_only (c : Cleaner) (h : c.stopChanClosed = false)
    (m : Map) (k : GoValue) :
    Cleaner.stop c = Except.ok ⟨true, true⟩
    ∧ Cleaner.stop ⟨true, true⟩ = Except.error GoPanic.closeOfClosedChannel
    ∧ Map.removeE m k = Except.ok (m.remove k)
    ∧ Map.flushE (m.flush) = Except.ok (Map.mk []) := by
  refine ⟨?_, rfl, rfl, rfl⟩
  simp [Cleaner.stop, h]

/-- Witness for `double_stop_panics_only` at the freshly constructed cleaner
and the empty map with key 0. -/
theorem double_stop_panics_only_witness :
    Cleaner.stop newCleanerCustom = Except.ok ⟨true, true⟩
    ∧ Cleaner.stop ⟨true, true⟩ = Except.error GoPanic.closeOfClosedChannel
    ∧ Map.removeE (Map.mk []) (GoValue.int 0) = Except.ok ((Map.mk []).remove (GoValue.int 0))
    ∧ Map.flushE ((Map.mk []).flush) = Except.ok (Map.mk []) :=
  double_stop_panics_only newCleanerCustom (by decide) (Map.mk []) (GoValue.int 0)

/-- C10: `GetValue` cannot distinguish absence from a stored `nil` value: for
the key 0 set to `nil` with ttl 100 at instant 0, `GetValue` returns `nil`
(the absent indicator) at instant 0, even though the entry is live — `Get`
reports found and `Contains` returns true at that same instant. -/
theorem getValue_cannot_distinguish_nil :
    ((Map.mk []).set (GoValue.int 0) GoValue.nil 100 0).getValue (GoValue.int 0) 0
        = GoValue.nil
    ∧ (((Map.mk []).set (GoValue.int 0) GoValue.nil 100 0).get (GoValue.int 0) 0).isSome
        = true
    ∧ ((Map.mk []).set (GoValue.int 0) GoValue.nil 100 0).contains (GoValue.int 0) 0
        = true := by
  decide

end Timedmap
